import Mathlib

set_option maxHeartbeats 1000000

/- Shallow embedding of the DTB streamline fiber-tracking code of this
   repository:
     src/DTB/Common/utils.h          (vector arithmetic)
     src/DTB/Common/streamline.h     (tracking engine and orchestrator)
     src/DTB/Common/TrackVis.h       (trk writer)
     src/DTB/Applications/DTB_streamline/main.cxx (parameter validation)
   Machine floats are modelled by rationals.  cos(maxAngle/180*pi) is
   transcendental, so the derived constant ANGLE_thr appears as the field
   angleThr of the environment; sqrt (used only by Normalize) and the
   uniform random generator are oracle parameters of the functions that
   call them. -/

/-- Vec3Df of utils.h: a 3D vector of floats, modelled with rationals. -/
structure Vec3q where
  x : ℚ
  y : ℚ
  z : ℚ
  deriving DecidableEq

/-- ScalarProduct of utils.h. -/
def dotQ (a b : Vec3q) : ℚ := a.x * b.x + a.y * b.y + a.z * b.z

/-- Componentwise negation, used to express the sign-corrected direction. -/
def Vec3q.negV (v : Vec3q) : Vec3q := ⟨-v.x, -v.y, -v.z⟩

/-- Normalize of utils.h: divide by the euclidean norm when it is positive.
    The square-root of a float is modelled by the oracle argument sq. -/
def normalizeQ (sq : ℚ → ℚ) (v : Vec3q) : Vec3q :=
  let n := sq (v.x * v.x + v.y * v.y + v.z * v.z)
  if 0 < n then ⟨v.x / n, v.y / n, v.z / n⟩ else v

/-- Vec3Di of utils.h: an integer voxel coordinate. -/
structure Vec3i where
  x : ℤ
  y : ℤ
  z : ℤ
  deriving DecidableEq

/-- tracking_config of streamline.h: seeds, minLength, maxLength are C ints,
    stepSize, volFracThr, maxAngle are floats. -/
structure Config where
  seeds : ℤ
  minLength : ℤ
  maxLength : ℤ
  stepSize : ℚ
  volFracThr : ℚ
  maxAngle : ℚ
  deriving DecidableEq

/-- The data a streamline object reads while tracking: the DIR dataset
    (niiDIR: a 4D float volume with its dim[1..3] and pixdim[1..3]), the
    white-matter mask (niiMASK: a 3D uint8 volume with its geometry), the
    derived ANGLE_thr and the configuration.  Volumes are total functions:
    the C++ code indexes them without bounds checks in several places. -/
structure TrackEnv where
  dirImg : ℤ → ℤ → ℤ → ℕ → ℚ
  dirDim1 : ℤ
  dirDim2 : ℤ
  dirDim3 : ℤ
  dirPix1 : ℚ
  dirPix2 : ℚ
  dirPix3 : ℚ
  maskImg : ℤ → ℤ → ℤ → ℕ
  maskDim1 : ℤ
  maskDim2 : ℤ
  maskDim3 : ℤ
  maskPix1 : ℚ
  maskPix2 : ℚ
  maskPix3 : ℚ
  angleThr : ℚ
  cfg : Config

/-- Volume fraction of ranked candidate i at a DIR voxel:
    niiDIR->img(voxel, i*4) (streamline.h line 332). -/
def vfc (env : TrackEnv) (v : Vec3i) (i : ℕ) : ℚ := env.dirImg v.x v.y v.z (i * 4)

/-- Stored direction of ranked candidate i at a DIR voxel: components
    niiDIR->img(voxel, i*4+1 .. i*4+3). -/
def candAt (env : TrackEnv) (v : Vec3i) (i : ℕ) : Vec3q :=
  ⟨env.dirImg v.x v.y v.z (i * 4 + 1), env.dirImg v.x v.y v.z (i * 4 + 2),
   env.dirImg v.x v.y v.z (i * 4 + 3)⟩

/-- DOT of pickBestDir (streamline.h lines 334-337): the scalar product of
    the travel direction with candidate i. -/
def dotc (env : TrackEnv) (v : Vec3i) (vec : Vec3q) (i : ℕ) : ℚ :=
  dotQ vec (candAt env v i)

/-- Candidate i qualifies for selection at this voxel for travel direction
    vec: volume fraction strictly above volFracThr and absolute dot strictly
    above ANGLE_thr. -/
def Qual (env : TrackEnv) (v : Vec3i) (vec : Vec3q) (i : ℕ) : Prop :=
  env.cfg.volFracThr < vfc env v i ∧ env.angleThr < |dotc env v vec i|

instance (env : TrackEnv) (v : Vec3i) (vec : Vec3q) (i : ℕ) :
    Decidable (Qual env v vec i) := by
  unfold Qual; infer_instance

/-- One iteration of the candidate scan of pickBestDir (streamline.h lines
    330-344).  The state is the pair (idx, max); idx encodes the selected
    candidate and the sign of its dot: i+1 when DOT>0, -(i+1) otherwise,
    and 0 while nothing is selected. -/
def pickAcc (env : TrackEnv) (v : Vec3i) (vec : Vec3q) (st : ℤ × ℚ) (i : ℕ) : ℤ × ℚ :=
  if vfc env v i ≤ env.cfg.volFracThr then st
  else
    if env.angleThr < |dotc env v vec i| ∧ st.2 < |dotc env v vec i| then
      (if 0 < dotc env v vec i then (i : ℤ) + 1 else -((i : ℤ) + 1), |dotc env v vec i|)
    else st

/-- The state after the full for(i=0;i<3;i++) scan, started from (0, 0). -/
def pickChain (env : TrackEnv) (v : Vec3i) (vec : Vec3q) : ℤ × ℚ :=
  pickAcc env v vec (pickAcc env v vec (pickAcc env v vec (0, 0) 0) 1) 2

/-- pickBestDir of streamline.h (lines 324-353): scan the three ranked
    candidates keeping the qualifying one with the largest absolute dot,
    fail when none was kept, otherwise re-read the selected candidate and
    flip its sign when its dot with vec was negative. -/
def pickBestDir (env : TrackEnv) (v : Vec3i) (vec : Vec3q) : Option Vec3q :=
  let st := pickChain env v vec
  if st.1 = 0 then none
  else
    let s : ℚ := if st.1 < 0 then -1 else 1
    let m := st.1.natAbs - 1
    some ⟨s * env.dirImg v.x v.y v.z (m * 4 + 1), s * env.dirImg v.x v.y v.z (m * 4 + 2),
          s * env.dirImg v.x v.y v.z (m * 4 + 3)⟩

/-- floor(coordinate / pixdim) on each axis: the voxel holding a physical
    point (streamline.h lines 226-228, 271-273, 282-284). -/
def voxelOfQ (p1 p2 p3 : ℚ) (c : Vec3q) : Vec3i :=
  ⟨Rat.floor (c.x / p1), Rat.floor (c.y / p2), Rat.floor (c.z / p3)⟩

/-- The stop test against the WM mask (streamline.h lines 229-234 and
    274-279): voxel outside the mask grid, or mask value zero. -/
def wmStop (env : TrackEnv) (v : Vec3i) : Prop :=
  v.x < 0 ∨ v.x > env.maskDim1 - 1 ∨ v.y < 0 ∨ v.y > env.maskDim2 - 1 ∨
  v.z < 0 ∨ v.z > env.maskDim3 - 1 ∨ env.maskImg v.x v.y v.z = 0

instance (env : TrackEnv) (v : Vec3i) : Decidable (wmStop env v) := by
  unfold wmStop; infer_instance

/-- The while(step<maxLength) propagation loop (streamline.h lines 268-297).
    The point list is most-recent-first, so consing a point models writing
    fiber column step; fuel is maxLength - step, so the loop guard is the
    fuel pattern match.  dirv carries the direction selected by the previous
    iteration (the in/out argument dir of pickBestDir); coord the current
    physical point COORD. -/
def stepLoop (env : TrackEnv) : ℕ → Vec3q → Vec3q → List Vec3q → List Vec3q
  | 0, _, _, pts => pts
  | fuel + 1, coord, dirv, pts =>
    if wmStop env (voxelOfQ env.maskPix1 env.maskPix2 env.maskPix3 coord) then pts
    else
      match pickBestDir env (voxelOfQ env.dirPix1 env.dirPix2 env.dirPix3 coord) dirv with
      | none => pts
      | some nd =>
        let c2 : Vec3q := ⟨coord.x + env.cfg.stepSize * nd.x,
                           coord.y + env.cfg.stepSize * nd.y,
                           coord.z + env.cfg.stepSize * nd.z⟩
        stepLoop env fuel c2 nd (c2 :: pts)

/-- The travel direction recomputed at the start of each semi-pass
    (streamline.h lines 263-266, before Normalize): the difference of the
    last two recorded points, columns step-1 and step-2.  The list always
    has at least two points when this is read. -/
def headDir : List Vec3q → Vec3q
  | a :: b :: _ => ⟨a.x - b.x, a.y - b.y, a.z - b.z⟩
  | _ => ⟨0, 0, 0⟩

/-- One seed-direction attempt of trackFromXYZ (streamline.h lines 240-314):
    the volume-fraction gate on the seed voxel, the seed point recorded as
    column 0, the unconditional first advance as column 1, the forward pass,
    the in-place reversal of the segment, and the backward pass.  Returns
    the finished fiber, most-recent-first (none when the gate rejects this
    candidate); its list length is the recorded step count LENGTHs(found). -/
def attemptDir (env : TrackEnv) (sq : ℚ → ℚ) (x y z : ℤ) (seed : Vec3q) (sd : ℕ) :
    Option (List Vec3q) :=
  if env.dirImg x y z (sd * 4) ≤ env.cfg.volFracThr then none
  else
    let d0 : Vec3q := ⟨env.dirImg x y z (sd * 4 + 1), env.dirImg x y z (sd * 4 + 2),
                       env.dirImg x y z (sd * 4 + 3)⟩
    let p1 : Vec3q := ⟨seed.x + env.cfg.stepSize * d0.x,
                       seed.y + env.cfg.stepSize * d0.y,
                       seed.z + env.cfg.stepSize * d0.z⟩
    let la := stepLoop env (env.cfg.maxLength - 2).toNat p1
      (normalizeQ sq (headDir [p1, seed])) [p1, seed]
    let lb := la.reverse
    let lc := stepLoop env (env.cfg.maxLength - (lb.length : ℤ)).toNat
      (lb.headD ⟨0, 0, 0⟩) (normalizeQ sq (headDir lb)) lb
    some lc

/-- One random seed point of a seed voxel (streamline.h lines 220-245):
    jitter the voxel corner by uniform draws, test WM containment of the
    seed point — failure executes break, which the caller models from the
    returned none — then try each of the three ranked directions. -/
def trackSeedNum (env : TrackEnv) (sq : ℚ → ℚ) (rand : ℕ → ℚ) (x y z : ℤ) (n : ℕ) :
    Option (List (List Vec3q)) :=
  let seed : Vec3q := ⟨((x : ℚ) + rand (3 * n)) * env.dirPix1,
                       ((y : ℚ) + rand (3 * n + 1)) * env.dirPix2,
                       ((z : ℚ) + rand (3 * n + 2)) * env.dirPix3⟩
  if wmStop env (voxelOfQ env.maskPix1 env.maskPix2 env.maskPix3 seed) then none
  else some (([0, 1, 2] : List ℕ).filterMap (attemptDir env sq x y z seed))

/-- The for(seedNum...) loop of trackFromXYZ: count remaining iterations in
    the second argument; a failed containment check (none) breaks out of
    the whole loop. -/
def seedLoop (env : TrackEnv) (sq : ℚ → ℚ) (rand : ℕ → ℚ) (x y z : ℤ) :
    ℕ → ℕ → List (List Vec3q)
  | _, 0 => []
  | n, k + 1 =>
    match trackSeedNum env sq rand x y z n with
    | none => []
    | some fs => fs ++ seedLoop env sq rand x y z (n + 1) k

/-- The bounds guard at the top of trackFromXYZ (streamline.h lines 208-212). -/
def dirOutOfBounds (env : TrackEnv) (x y z : ℤ) : Prop :=
  x < 0 ∨ x > env.dirDim1 - 1 ∨ y < 0 ∨ y > env.dirDim2 - 1 ∨
  z < 0 ∨ z > env.dirDim3 - 1

instance (env : TrackEnv) (x y z : ℤ) : Decidable (dirOutOfBounds env x y z) := by
  unfold dirOutOfBounds; infer_instance

/-- trackFromXYZ of streamline.h (lines 206-319): every fiber grown from
    seed voxel (x,y,z), in the order they were found.  The C++ return value
    found is the length of this list and LENGTHs(i) the length of entry i. -/
def trackFromXYZ (env : TrackEnv) (sq : ℚ → ℚ) (rand : ℕ → ℚ) (x y z : ℤ) :
    List (List Vec3q) :=
  if dirOutOfBounds env x y z then []
  else seedLoop env sq rand x y z 0 env.cfg.seeds.toNat

/-- The global length filter of doTracking (streamline.h lines 182-184):
    (LENGTHs(i)-1)*stepSize*niiDIR pixdim[1] >= minLength. -/
def acceptFiber (cfg : Config) (pix1 : ℚ) (len : ℕ) : Prop :=
  (cfg.minLength : ℚ) ≤ ((len : ℚ) - 1) * cfg.stepSize * pix1

instance (cfg : Config) (pix1 : ℚ) (len : ℕ) : Decidable (acceptFiber cfg pix1 len) := by
  unfold acceptFiber; infer_instance

/-- The save loop of doTracking (streamline.h lines 176-189): walk the
    fibers found at one voxel, append each accepted one to the trk file and
    count it; a rejected fiber is skipped with no error.  The pair is
    (fibers appended, in order; fibers counted into tot_fibers). -/
def saveLoop (cfg : Config) (pix1 : ℚ) (fibers : List (List Vec3q)) :
    List (List Vec3q) × ℕ :=
  fibers.foldl
    (fun st f => if acceptFiber cfg pix1 f.length then (st.1 ++ [f], st.2 + 1) else st)
    ([], 0)

/-- floor of each coordinate of a fiber point (TrackVis.h lines 176-178). -/
def floor3 (p : Vec3q) : Vec3i := ⟨Rat.floor p.x, Rat.floor p.y, Rat.floor p.z⟩

/-- The TRACKVIS_SAVE_UNIQUE branch of TrackVis::append (TrackVis.h lines
    168-188): keep a point when nothing was saved yet (pos==0) or when its
    floor voxel differs from the one of the last saved point (oldX,oldY,oldZ);
    pos counts the floats saved so far, so each kept point adds 3. -/
def uniqueLoop : List Vec3q → ℕ → Vec3i → List Vec3q
  | [], _, _ => []
  | p :: rest, pos, old =>
    if pos = 0 ∨ floor3 p ≠ old then p :: uniqueLoop rest (pos + 3) (floor3 p)
    else uniqueLoop rest pos old

/-- The point sequence written for a fiber by append with
    TRACKVIS_SAVE_UNIQUE (oldX=oldY=oldZ=0 and pos=0 initially). -/
def uniqueReduce (pts : List Vec3q) : List Vec3q := uniqueLoop pts 0 ⟨0, 0, 0⟩

/-- dim[1..3] and pixdim[1..3] of a nifti header, as the mask setters
    read them. -/
structure NiftiGeom where
  dim1 : ℤ
  dim2 : ℤ
  dim3 : ℤ
  pixdim1 : ℚ
  pixdim2 : ℚ
  pixdim3 : ℚ
  deriving DecidableEq

/-- The FOV inequality test of setWhiteMatterMask (streamline.h lines
    113-115): dim*pixdim compared per axis against the DIR dataset. -/
def wmFovMismatch (dir wm : NiftiGeom) : Prop :=
  (wm.dim1 : ℚ) * wm.pixdim1 ≠ (dir.dim1 : ℚ) * dir.pixdim1 ∨
  (wm.dim2 : ℚ) * wm.pixdim2 ≠ (dir.dim2 : ℚ) * dir.pixdim2 ∨
  (wm.dim3 : ℚ) * wm.pixdim3 ≠ (dir.dim3 : ℚ) * dir.pixdim3

instance (dir wm : NiftiGeom) : Decidable (wmFovMismatch dir wm) := by
  unfold wmFovMismatch; infer_instance

/-- setWhiteMatterMask (streamline.h lines 110-121): on FOV mismatch only a
    warning is printed (the Bool) and the mask is installed regardless, so
    tracking proceeds. -/
def setWhiteMatterMask (dir wm : NiftiGeom) : Bool × NiftiGeom :=
  (decide (wmFovMismatch dir wm), wm)

/-- The geometry inequality test of setSeedMask (streamline.h lines
    129-136): pixdim and dim compared componentwise against DIR. -/
def seedGeomMismatch (dir sd : NiftiGeom) : Prop :=
  sd.pixdim1 ≠ dir.pixdim1 ∨ sd.pixdim2 ≠ dir.pixdim2 ∨ sd.pixdim3 ≠ dir.pixdim3 ∨
  sd.dim1 ≠ dir.dim1 ∨ sd.dim2 ≠ dir.dim2 ∨ sd.dim3 ≠ dir.dim3

instance (dir sd : NiftiGeom) : Decidable (seedGeomMismatch dir sd) := by
  unfold seedGeomMismatch; infer_instance

/-- setSeedMask (streamline.h lines 124-143): a NULL seed mask means every
    voxel seeds; a geometry mismatch prints the diagnostic and exits with
    status 1, modelled as the error value. -/
def setSeedMask (dir : NiftiGeom) (sd : Option NiftiGeom) :
    Except String (Option NiftiGeom) :=
  match sd with
  | none => Except.ok none
  | some s =>
    if seedGeomMismatch dir s then
      Except.error "the SEED MASK must have the same geometry of DIR dataset"
    else Except.ok (some s)

/-- The parameter-range validation of main (DTB_streamline/main.cxx lines
    88-112), checks in source order; Except.error models printing the
    message and returning 1 before any tracking.  Note the source has no
    check at all on minLength. -/
def checkParams (c : Config) : Except String Unit :=
  if c.volFracThr < 0 ∨ 1 < c.volFracThr then
    Except.error "vf parameter must be in the range [0..1]"
  else if c.stepSize ≤ 0 ∨ 4 < c.stepSize then
    Except.error "stepSize parameter must be in the range (0..4]"
  else if c.maxLength < 1 ∨ 1000 < c.maxLength then
    Except.error "maxLength parameter must be in the range [1..1000]"
  else if c.maxAngle < 1 ∨ 90 < c.maxAngle then
    Except.error "maxAngle parameter must be in the range [1..90]"
  else if c.seeds < 1 ∨ 64 < c.seeds then
    Except.error "seeds parameter must be in the range [1..64]"
  else Except.ok ()

/-- The main flow around the validation (main.cxx): every range check
    returns from main before the tracker runs and before the output file is
    created, so a validation error yields no tracking and no output; the
    tracking run itself is abstracted as a thunk. -/
def mainModel (c : Config) (runTracking : Unit → ℕ) : Except String ℕ :=
  match checkParams c with
  | Except.error e => Except.error e
  | Except.ok _ => Except.ok (runTracking ())

/- ---------- TrackVis file model (TrackVis.h) ----------
   The file is a byte store: offset -> byte value.  TrackVis_header is a
   packed 1000-byte struct; the field offsets below follow its layout:
     id_string 0, dim 6, voxel_size 12, origin 24, n_scalars 36,
     scalar_name 38, n_properties 238, property_name 240, reserved 440,
     voxel_order 948, pad2 952, image_orientation_patient 956, pad1 980,
     invert_x..swap_zx 982, n_count 988, version 992, hdr_size 996.
   short ints and ints are little-endian; a float is carried as its 32-bit
   pattern (the round trip never interprets it). -/

/-- A byte store: offset to byte value. -/
def Bytes : Type := ℕ → ℕ

/-- Overwrite the bytes bs at offset off. -/
def writeBytes (f : Bytes) (off : ℕ) (bs : List ℕ) : Bytes :=
  fun i => if off ≤ i ∧ i < off + bs.length then bs.getD (i - off) 0 else f i

/-- A short int as two little-endian bytes. -/
def i16le (n : ℕ) : List ℕ := [n % 256, n / 256 % 256]

/-- An int (or a float pattern) as four little-endian bytes. -/
def i32le (n : ℕ) : List ℕ :=
  [n % 256, n / 256 % 256, n / 65536 % 256, n / 16777216 % 256]

/-- Read back a short int. -/
def rd16 (f : Bytes) (o : ℕ) : ℕ := f o + 256 * f (o + 1)

/-- Read back an int (or float pattern). -/
def rd32 (f : Bytes) (o : ℕ) : ℕ :=
  f o + 256 * f (o + 1) + 65536 * f (o + 2) + 16777216 * f (o + 3)

/-- The 32-bit patterns w with float(w) > 0: sign bit clear, not zero, not
    NaN (patterns 1 .. 0x7F800000, the last being +infinity). -/
def f32pos (w : ℕ) : Prop := 1 ≤ w ∧ w ≤ 2139095040

instance (w : ℕ) : Decidable (f32pos w) := by
  unfold f32pos; infer_instance

/-- The pattern of 1.0f, written into image_orientation_patient. -/
def f32one : ℕ := 1065353216

/-- TrackVis::create (TrackVis.h lines 80-121): reject a non-positive dim
    or pixdim, else fill the header fields over the uninitialized struct
    memory (junk) and write the 1000 header bytes.  n_count starts at 0,
    version is 1, hdr_size is 1000. -/
def trkCreate (junk : Bytes) (d1 d2 d3 : ℤ) (p1 p2 p3 : ℕ) : Option Bytes :=
  if d1 ≤ 0 ∨ d2 ≤ 0 ∨ d3 ≤ 0 ∨ ¬ f32pos p1 ∨ ¬ f32pos p2 ∨ ¬ f32pos p3 then none
  else
    let b00 := writeBytes junk 0 [84, 82, 65, 67, 75, 0]
    let b01 := writeBytes b00 6 (i16le d1.toNat)
    let b02 := writeBytes b01 8 (i16le d2.toNat)
    let b03 := writeBytes b02 10 (i16le d3.toNat)
    let b04 := writeBytes b03 12 (i32le p1)
    let b05 := writeBytes b04 16 (i32le p2)
    let b06 := writeBytes b05 20 (i32le p3)
    let b07 := writeBytes b06 24 (i32le 0)
    let b08 := writeBytes b07 28 (i32le 0)
    let b09 := writeBytes b08 32 (i32le 0)
    let b10 := writeBytes b09 36 (i16le 0)
    let b11 := writeBytes b10 238 (i16le 0)
    let b12 := writeBytes b11 948 [76, 80, 83, 0]
    let b13 := writeBytes b12 952 [76, 80, 83, 0]
    let b14 := writeBytes b13 956 (i32le f32one)
    let b15 := writeBytes b14 960 (i32le 0)
    let b16 := writeBytes b15 964 (i32le 0)
    let b17 := writeBytes b16 968 (i32le 0)
    let b18 := writeBytes b17 972 (i32le f32one)
    let b19 := writeBytes b18 976 (i32le 0)
    let b20 := writeBytes b19 980 [0, 0]
    let b21 := writeBytes b20 982 [0, 0, 0, 0, 0, 0]
    let b22 := writeBytes b21 988 (i32le 0)
    let b23 := writeBytes b22 992 (i32le 1)
    let b24 := writeBytes b23 996 (i32le 1000)
    some b24

/-- TrackVis::updateTotal (TrackVis.h lines 220-224): seek to 1000-12 from
    the start and write the 4 bytes of the total. -/
def trkUpdateTotal (f : Bytes) (n : ℕ) : Bytes := writeBytes f (1000 - 12) (i32le n)

/-- dim[0..2] as TrackVis::open reads them back (offset 6 in the struct). -/
def trkReadDims (f : Bytes) : ℕ × ℕ × ℕ := (rd16 f 6, rd16 f 8, rd16 f 10)

/-- voxel_size[0..2] patterns as open reads them back (offset 12). -/
def trkReadVoxelSize (f : Bytes) : ℕ × ℕ × ℕ := (rd32 f 12, rd32 f 16, rd32 f 20)

/-- n_count as open reads it back (offset 988 in the struct). -/
def trkReadCount (f : Bytes) : ℕ := rd32 f 988

/-- version as open reads it back (offset 992). -/
def trkReadVersion (f : Bytes) : ℕ := rd32 f 992

/-- hdr_size as open reads it back (offset 996). -/
def trkReadHdrSize (f : Bytes) : ℕ := rd32 f 996

/- ---------- Concrete instances used by witnesses and counterexamples ---------- -/

/-- A square-root oracle instance good enough for the concrete runs below
    (only ever applied to 1 there). -/
def sqW : ℚ → ℚ := fun q => if q = 1 then 1 else 0

/-- A random stream that always draws 1/2. -/
def randHalf : ℕ → ℚ := fun _ => 1 / 2

/-- A 1x1x1 DIR volume: at voxel (0,0,0) candidate 0 has volume fraction 1
    and direction (1,0,0); candidates 1 and 2 have volume fraction 0. -/
def dirImgW : ℤ → ℤ → ℤ → ℕ → ℚ := fun a b c k =>
  if a = 0 ∧ b = 0 ∧ c = 0 ∧ (k = 0 ∨ k = 1) then 1 else 0

/-- Environment for the witnesses: 1x1x1 grids with unit voxels, an
    all-inside WM mask, maxLength 2. -/
def envW : TrackEnv :=
  { dirImg := dirImgW
    dirDim1 := 1, dirDim2 := 1, dirDim3 := 1
    dirPix1 := 1, dirPix2 := 1, dirPix3 := 1
    maskImg := fun _ _ _ => 1
    maskDim1 := 1, maskDim2 := 1, maskDim3 := 1
    maskPix1 := 1, maskPix2 := 1, maskPix3 := 1
    angleThr := 1 / 2
    cfg := { seeds := 1, minLength := 0, maxLength := 2, stepSize := 1,
             volFracThr := 0, maxAngle := 45 } }

/-- The one fiber envW produces from voxel (0,0,0) with randHalf: the seed
    point and the first advance, in column order after the reversal. -/
def fibW : List Vec3q := [⟨1 / 2, 1 / 2, 1 / 2⟩, ⟨3 / 2, 1 / 2, 1 / 2⟩]

/-- The environment of the C3 counterexample: envW with maxLength = 1 (a
    value the CLI accepts, its range being [1..1000]). -/
def envC3 : TrackEnv := { envW with cfg := { envW.cfg with maxLength := 1 } }

/-- Random stream for the C5 counterexample: the first seed point draws
    1/10, every later one draws 9/10. -/
def randC5 : ℕ → ℚ := fun i => if i < 3 then 1 / 10 else 9 / 10

/-- Environment for the C5 counterexample: two random seed points per
    voxel; the finer WM mask (pixdim 1/2, two voxels on x) is zero on its
    voxel 0 and one on its voxel 1, so the first random point (at 1/10)
    fails containment while the second (at 9/10) lies inside. -/
def envC5 : TrackEnv :=
  { dirImg := dirImgW
    dirDim1 := 1, dirDim2 := 1, dirDim3 := 1
    dirPix1 := 1, dirPix2 := 1, dirPix3 := 1
    maskImg := fun a _ _ => if a = 1 then 1 else 0
    maskDim1 := 2, maskDim2 := 1, maskDim3 := 1
    maskPix1 := 1 / 2, maskPix2 := 1, maskPix3 := 1
    angleThr := 1 / 2
    cfg := { seeds := 2, minLength := 0, maxLength := 2, stepSize := 1,
             volFracThr := 0, maxAngle := 45 } }

/-- The boundary configuration of the length-filter claim: stepSize 1 and
    minLength 10. -/
def cfgB : Config :=
  { seeds := 1, minLength := 10, maxLength := 1000, stepSize := 1,
    volFracThr := 0, maxAngle := 45 }

/-- A configuration whose minLength is negative (outside the valid range
    of the spec) while every parameter main.cxx checks is in range. -/
def cfgNegMin : Config :=
  { seeds := 1, minLength := -1, maxLength := 1000, stepSize := 1,
    volFracThr := 0, maxAngle := 45 }

/-- Uninitialized file memory for the TrackVis witnesses. -/
def junkW : Bytes := fun _ => 0

/-- The header bytes written by create for the concrete witness run. -/
def trkW : Bytes := (trkCreate junkW 2 3 4 f32one f32one f32one).getD (fun _ => 0)

/-- DIR and mask geometries that disagree for the C7 witness: the first
    axis has 2 voxels against 3 (same pixdim), so both the seed test and
    the FOV product test fire. -/
def geomDirW : NiftiGeom := ⟨2, 2, 2, 1, 1, 1⟩

/-- The mismatching mask geometry of the C7 witness. -/
def geomMaskW : NiftiGeom := ⟨3, 2, 2, 1, 1, 1⟩

/- ---------- Statements of the claimed properties ---------- -/

/-- The claimed contract of pickBestDir for a voxel and travel direction:
    every returned direction comes from a qualifying candidate (volume
    fraction above threshold, absolute dot strictly above ANGLE_thr),
    sign-corrected so its dot with the travel direction is non-negative,
    with the largest absolute dot among qualifiers and ties won by the
    lowest ranked index; and some direction is returned whenever some
    candidate qualifies. -/
def PickSpec (env : TrackEnv) (v : Vec3i) (vec : Vec3q) : Prop :=
  (∀ w, pickBestDir env v vec = some w →
    ∃ m, m < 3 ∧ Qual env v vec m ∧
      ((0 < dotc env v vec m ∧ w = candAt env v m) ∨
       (dotc env v vec m < 0 ∧ w = (candAt env v m).negV)) ∧
      0 ≤ dotQ vec w ∧
      (∀ j, j < 3 → Qual env v vec j → |dotc env v vec j| ≤ |dotc env v vec m|) ∧
      (∀ j, j < m → Qual env v vec j → |dotc env v vec j| < |dotc env v vec m|)) ∧
  ((∃ j, j < 3 ∧ Qual env v vec j) → (pickBestDir env v vec).isSome = true)

/-- The claimed volume-fraction gating: a direction pickBestDir returns is
    always one of the (possibly negated) candidates whose volume fraction
    strictly exceeds volFracThr; the seed gate of trackFromXYZ skips a
    candidate whose volume fraction is at most volFracThr; and an all-zero
    direction field with volFracThr = 0 produces no fiber from any voxel. -/
def VolFracSpec (env : TrackEnv) (sq : ℚ → ℚ) (rand : ℕ → ℚ) (x y z : ℤ) : Prop :=
  (∀ v vec w, pickBestDir env v vec = some w →
    ∃ m, m < 3 ∧ env.cfg.volFracThr < vfc env v m ∧
      (w = candAt env v m ∨ w = (candAt env v m).negV)) ∧
  (∀ seed sd, env.dirImg x y z (sd * 4) ≤ env.cfg.volFracThr →
    attemptDir env sq x y z seed sd = none) ∧
  ((∀ a b c k, env.dirImg a b c k = 0) → env.cfg.volFracThr = 0 →
    trackFromXYZ env sq rand x y z = [])

/-- The amended step-count bound: a recorded step count never exceeds
    max 2 maxLength (the seed point and the unconditional first advance
    are always recorded), hence never exceeds maxLength once maxLength is
    at least 2. -/
def LenBoundSpec (env : TrackEnv) (fiber : List Vec3q) : Prop :=
  (fiber.length : ℤ) ≤ max 2 env.cfg.maxLength ∧
  (2 ≤ env.cfg.maxLength → (fiber.length : ℤ) ≤ env.cfg.maxLength)

/-- The claimed acceptance filter of doTracking: the fibers appended to the
    trk file are exactly the produced ones whose
    (stepCount-1)*stepSize*pixdim reaches minLength; the count written to
    the header counts exactly those; and at stepSize 1, unit voxel and
    minLength 10, step count 11 is accepted and 10 rejected. -/
def SaveSpec (cfg : Config) (pix1 : ℚ) (fibers : List (List Vec3q)) : Prop :=
  (saveLoop cfg pix1 fibers).1 =
    fibers.filter (fun f => decide (acceptFiber cfg pix1 f.length)) ∧
  (saveLoop cfg pix1 fibers).2 = ((saveLoop cfg pix1 fibers).1).length ∧
  (∀ f, f ∈ (saveLoop cfg pix1 fibers).1 ↔ f ∈ fibers ∧ acceptFiber cfg pix1 f.length) ∧
  acceptFiber cfgB 1 11 ∧ ¬ acceptFiber cfgB 1 10

/-- The amended seed-loop behaviour: when random seed point n of a voxel is
    the first to fail the WM containment check, the voxel's output is
    exactly the fibers of the points before n — the engine does not attempt
    any later random point of the voxel. -/
def SeedBreakSpec (env : TrackEnv) (sq : ℚ → ℚ) (rand : ℕ → ℚ) (x y z : ℤ) (n : ℕ) : Prop :=
  trackFromXYZ env sq rand x y z =
    ((List.range n).map (fun k => (trackSeedNum env sq rand x y z k).getD [])).flatten

/-- The claimed Unique-reduction contract: the written sequence never has
    two consecutive points in the same floor voxel, every traversed floor
    voxel keeps at least one written point, and written points are a
    subsequence of the fiber. -/
def UniqueSpec (pts : List Vec3q) : Prop :=
  List.Chain' (fun a b => floor3 a ≠ floor3 b) (uniqueReduce pts) ∧
  (∀ p, p ∈ pts → ∃ q, q ∈ uniqueReduce pts ∧ floor3 q = floor3 p) ∧
  (uniqueReduce pts).Sublist pts

/-- The round-trip contract of the trk header: after create (with junk
    struct memory) and updateTotal n, reading the header back yields the
    grid dimensions, the voxel-size patterns, count n, version 1 and header
    size 1000; before updateTotal the count reads 0. -/
def TrkSpec (d1 d2 d3 : ℤ) (p1 p2 p3 n : ℕ) (f : Bytes) : Prop :=
  trkReadDims (trkUpdateTotal f n) = (d1.toNat, d2.toNat, d3.toNat) ∧
  trkReadVoxelSize (trkUpdateTotal f n) = (p1, p2, p3) ∧
  trkReadCount (trkUpdateTotal f n) = n ∧
  trkReadVersion (trkUpdateTotal f n) = 1 ∧
  trkReadHdrSize (trkUpdateTotal f n) = 1000 ∧
  trkReadDims f = (d1.toNat, d2.toNat, d3.toNat) ∧
  trkReadCount f = 0

/-- The amended validation contract of main: validation succeeds exactly
    when the five checked parameters (volFracThr, stepSize, maxLength,
    maxAngle, seeds) are in range — minLength is not checked at all — and
    a validation error reaches the caller before any tracking output. -/
def CheckSpec (c : Config) (run : Unit → ℕ) : Prop :=
  (checkParams c = Except.ok () ↔
    (0 ≤ c.volFracThr ∧ c.volFracThr ≤ 1 ∧ 0 < c.stepSize ∧ c.stepSize ≤ 4 ∧
     1 ≤ c.maxLength ∧ c.maxLength ≤ 1000 ∧ 1 ≤ c.maxAngle ∧ c.maxAngle ≤ 90 ∧
     1 ≤ c.seeds ∧ c.seeds ≤ 64)) ∧
  (∀ e, checkParams c = Except.error e → mainModel c run = Except.error e)

/- ---------- Lemmas about the candidate scan ---------- -/

/-- Invariant of the candidate scan after the first k iterations: while
    idx is 0 nothing qualified; otherwise idx encodes a qualifying
    candidate m with max = its absolute dot, the sign of idx the sign of
    its dot, max dominating every qualifier seen and strictly dominating
    the qualifiers before m. -/
def PickInv (env : TrackEnv) (v : Vec3i) (vec : Vec3q) (k : ℕ) (st : ℤ × ℚ) : Prop :=
  0 ≤ st.2 ∧
  ((st = (0, 0) ∧ ∀ j, j < k → ¬ Qual env v vec j) ∨
   (∃ m, m < k ∧ Qual env v vec m ∧ st.2 = |dotc env v vec m| ∧
     ((0 < dotc env v vec m ∧ st.1 = (m : ℤ) + 1) ∨
      (dotc env v vec m < 0 ∧ st.1 = -((m : ℤ) + 1))) ∧
     (∀ j, j < k → Qual env v vec j → |dotc env v vec j| ≤ st.2) ∧
     (∀ j, j < m → Qual env v vec j → |dotc env v vec j| < st.2)))

theorem pickAcc_inv (env : TrackEnv) (v : Vec3i) (vec : Vec3q)
    (hthr : 0 ≤ env.angleThr) (k : ℕ) (st : ℤ × ℚ)
    (h : PickInv env v vec k st) : PickInv env v vec (k + 1) (pickAcc env v vec st k) := by
  obtain ⟨h2, hcase⟩ := h
  unfold pickAcc
  by_cases hvf : vfc env v k ≤ env.cfg.volFracThr
  · -- volume fraction at most the threshold: candidate k skipped
    rw [if_pos hvf]
    have hnq : ¬ Qual env v vec k := fun hq => absurd hq.1 (not_lt.mpr hvf)
    refine ⟨h2, ?_⟩
    rcases hcase with ⟨hst, hall⟩ | ⟨m, hm, hqm, hmax, hsign, hle, hlt⟩
    · refine Or.inl ⟨hst, fun j hj => ?_⟩
      rcases Nat.lt_succ_iff_lt_or_eq.mp hj with hj' | rfl
      · exact hall j hj'
      · exact hnq
    · refine Or.inr ⟨m, by omega, hqm, hmax, hsign, fun j hj hq => ?_, hlt⟩
      rcases Nat.lt_succ_iff_lt_or_eq.mp hj with hj' | rfl
      · exact hle j hj' hq
      · exact absurd hq hnq
  · rw [if_neg hvf]
    by_cases hcond : env.angleThr < |dotc env v vec k| ∧ st.2 < |dotc env v vec k|
    · -- candidate k qualifies and beats the running max: it is selected
      rw [if_pos hcond]
      have hq : Qual env v vec k := ⟨lt_of_not_le hvf, hcond.1⟩
      have habs : 0 < |dotc env v vec k| := lt_of_le_of_lt h2 hcond.2
      have hub : ∀ j, j < k → Qual env v vec j → |dotc env v vec j| < |dotc env v vec k| := by
        intro j hj hqj
        rcases hcase with ⟨hst, hall⟩ | ⟨m, hm, hqm, hmax, hsign, hle, hlt⟩
        · exact absurd hqj (hall j hj)
        · exact lt_of_le_of_lt (hle j hj hqj) hcond.2
      refine ⟨abs_nonneg _, Or.inr ⟨k, by omega, hq, rfl, ?_, ?_, hub⟩⟩
      · by_cases hd : 0 < dotc env v vec k
        · exact Or.inl ⟨hd, by simp [hd]⟩
        · have hne : dotc env v vec k ≠ 0 := fun h0 => by rw [h0] at habs; simp at habs
          exact Or.inr ⟨lt_of_le_of_ne (not_lt.mp hd) hne, by simp [hd]⟩
      · intro j hj hqj
        rcases Nat.lt_succ_iff_lt_or_eq.mp hj with hj' | rfl
        · exact le_of_lt (hub j hj' hqj)
        · exact le_refl _
    · -- candidate k does not beat the running max: state unchanged
      rw [if_neg hcond]
      push_neg at hcond
      refine ⟨h2, ?_⟩
      rcases hcase with ⟨hst, hall⟩ | ⟨m, hm, hqm, hmax, hsign, hle, hlt⟩
      · refine Or.inl ⟨hst, fun j hj => ?_⟩
        rcases Nat.lt_succ_iff_lt_or_eq.mp hj with hj' | rfl
        · exact hall j hj'
        · intro hqk
          have h0 : st.2 = 0 := by rw [hst]
          have hle2 := hcond hqk.2
          have hpos : (0:ℚ) < |dotc env v vec j| := lt_of_le_of_lt hthr hqk.2
          rw [h0] at hle2
          linarith
      · refine Or.inr ⟨m, by omega, hqm, hmax, hsign, fun j hj hq => ?_, hlt⟩
        rcases Nat.lt_succ_iff_lt_or_eq.mp hj with hj' | rfl
        · exact hle j hj' hq
        · exact hcond hq.2

theorem pickInv_start (env : TrackEnv) (v : Vec3i) (vec : Vec3q) :
    PickInv env v vec 0 (0, 0) :=
  ⟨le_refl 0, Or.inl ⟨rfl, fun j hj => absurd hj (Nat.not_lt_zero j)⟩⟩

theorem pickChain_inv (env : TrackEnv) (v : Vec3i) (vec : Vec3q)
    (hthr : 0 ≤ env.angleThr) : PickInv env v vec 3 (pickChain env v vec) :=
  pickAcc_inv env v vec hthr 2 _
    (pickAcc_inv env v vec hthr 1 _
      (pickAcc_inv env v vec hthr 0 _ (pickInv_start env v vec)))

/-- Decoding the returned vector: when idx ended as m+1 the stored
    candidate m is returned as is, when it ended as -(m+1) it is returned
    negated. -/
theorem pickBestDir_decode (env : TrackEnv) (v : Vec3i) (vec : Vec3q) (m : ℕ) (w : Vec3q)
    (h : pickBestDir env v vec = some w) :
    ((pickChain env v vec).1 = (m : ℤ) + 1 → w = candAt env v m) ∧
    ((pickChain env v vec).1 = -((m : ℤ) + 1) → w = (candAt env v m).negV) := by
  constructor
  · intro h1
    simp only [pickBestDir, h1] at h
    have hpos : ¬ ((m : ℤ) + 1 = 0) := by omega
    have hneg : ¬ ((m : ℤ) + 1 < 0) := by omega
    rw [if_neg hpos] at h
    simp only [if_neg hneg] at h
    have hm : ((m : ℤ) + 1).natAbs - 1 = m := by omega
    rw [hm] at h
    obtain rfl := Option.some.inj h
    simp [candAt]
  · intro h1
    simp only [pickBestDir, h1] at h
    have hpos : ¬ (-((m : ℤ) + 1) = 0) := by omega
    have hneg : -((m : ℤ) + 1) < 0 := by omega
    rw [if_neg hpos] at h
    simp only [if_pos hneg] at h
    have hm : (-((m : ℤ) + 1)).natAbs - 1 = m := by omega
    rw [hm] at h
    obtain rfl := Option.some.inj h
    simp [candAt, Vec3q.negV, neg_mul, one_mul]

theorem dotQ_negV (a b : Vec3q) : dotQ a b.negV = -(dotQ a b) := by
  unfold dotQ Vec3q.negV
  ring

/-- C1: pickBestDir qualifies a candidate only with |dot| strictly above
    angleCos, selects among qualifiers the largest |dot| with ties won by
    the lowest ranked index, returns it sign-corrected so that its dot with
    the incoming direction is non-negative, and succeeds whenever some
    candidate qualifies. -/
theorem C1_direction_selection (env : TrackEnv) (v : Vec3i) (vec : Vec3q)
    (hthr : 0 ≤ env.angleThr) : PickSpec env v vec := by
  have hinv := pickChain_inv env v vec hthr
  constructor
  · intro w hw
    have h0 : (pickChain env v vec).1 ≠ 0 := by
      intro h0
      simp only [pickBestDir, h0] at hw
      simp at hw
    rcases hinv.2 with ⟨hst, _⟩ | ⟨m, hm, hqm, hmax, hsign, hle, hlt⟩
    · exact absurd (by rw [hst]) h0
    · have hdec := pickBestDir_decode env v vec m w hw
      refine ⟨m, hm, hqm, ?_, ?_, ?_, ?_⟩
      · rcases hsign with ⟨hd, h1⟩ | ⟨hd, h1⟩
        · exact Or.inl ⟨hd, hdec.1 h1⟩
        · exact Or.inr ⟨hd, hdec.2 h1⟩
      · rcases hsign with ⟨hd, h1⟩ | ⟨hd, h1⟩
        · rw [hdec.1 h1]
          exact le_of_lt hd
        · rw [hdec.2 h1, dotQ_negV]
          have : dotQ vec (candAt env v m) < 0 := hd
          linarith
      · intro j hj hqj
        have := hle j hj hqj
        rw [hmax] at this
        exact this
      · intro j hj hqj
        have := hlt j hj hqj
        rw [hmax] at this
        exact this
  · rintro ⟨j, hj, hqj⟩
    have h0 : (pickChain env v vec).1 ≠ 0 := by
      rcases hinv.2 with ⟨hst, hall⟩ | ⟨m, hm, hqm, hmax, hsign, hle, hlt⟩
      · exact absurd hqj (hall j hj)
      · rcases hsign with ⟨_, h1⟩ | ⟨_, h1⟩ <;> rw [h1] <;> omega
    simp only [pickBestDir, if_neg h0]
    rfl

/-- C1 witness: the hypothesis and the property hold at the concrete
    environment envW, voxel (0,0,0) and travel direction (1,0,0). -/
theorem C1_direction_selection_witness :
    0 ≤ envW.angleThr ∧ PickSpec envW ⟨0, 0, 0⟩ ⟨1, 0, 0⟩ :=
  ⟨by decide!, C1_direction_selection envW ⟨0, 0, 0⟩ ⟨1, 0, 0⟩ (by decide!)⟩

/-- Weak invariant of the candidate scan: a nonzero idx always encodes a
    candidate whose volume fraction strictly beats the threshold. -/
def PickVF (env : TrackEnv) (v : Vec3i) (k : ℕ) (st : ℤ × ℚ) : Prop :=
  st.1 = 0 ∨ ∃ m, m < k ∧ env.cfg.volFracThr < vfc env v m ∧
    (st.1 = (m : ℤ) + 1 ∨ st.1 = -((m : ℤ) + 1))

theorem pickAcc_vf (env : TrackEnv) (v : Vec3i) (vec : Vec3q) (k : ℕ) (st : ℤ × ℚ)
    (h : PickVF env v k st) : PickVF env v (k + 1) (pickAcc env v vec st k) := by
  unfold pickAcc
  by_cases hvf : vfc env v k ≤ env.cfg.volFracThr
  · rw [if_pos hvf]
    rcases h with h0 | ⟨m, hm, hvfm, hs⟩
    · exact Or.inl h0
    · exact Or.inr ⟨m, by omega, hvfm, hs⟩
  · rw [if_neg hvf]
    by_cases hcond : env.angleThr < |dotc env v vec k| ∧ st.2 < |dotc env v vec k|
    · rw [if_pos hcond]
      refine Or.inr ⟨k, by omega, lt_of_not_le hvf, ?_⟩
      by_cases hd : 0 < dotc env v vec k
      · exact Or.inl (by simp [hd])
      · exact Or.inr (by simp [hd])
    · rw [if_neg hcond]
      rcases h with h0 | ⟨m, hm, hvfm, hs⟩
      · exact Or.inl h0
      · exact Or.inr ⟨m, by omega, hvfm, hs⟩

theorem pickChain_vf (env : TrackEnv) (v : Vec3i) (vec : Vec3q) :
    PickVF env v 3 (pickChain env v vec) :=
  pickAcc_vf env v vec 2 _
    (pickAcc_vf env v vec 1 _
      (pickAcc_vf env v vec 0 _ (Or.inl rfl)))

/-- C2: pickBestDir never returns a candidate whose volume fraction is at
    or below volFracThr, the seed gate skips such candidates, and the
    all-zero direction field with volFracThr = 0 yields zero fibers from
    every seed voxel. -/
theorem C2_volume_fraction_gate (env : TrackEnv) (sq : ℚ → ℚ) (rand : ℕ → ℚ) (x y z : ℤ) :
    VolFracSpec env sq rand x y z := by
  refine ⟨?_, ?_, ?_⟩
  · intro v vec w hw
    rcases pickChain_vf env v vec with h0 | ⟨m, hm, hvfm, hs⟩
    · exfalso
      simp only [pickBestDir, h0] at hw
      simp at hw
    · have hdec := pickBestDir_decode env v vec m w hw
      rcases hs with h1 | h1
      · exact ⟨m, hm, hvfm, Or.inl (hdec.1 h1)⟩
      · exact ⟨m, hm, hvfm, Or.inr (hdec.2 h1)⟩
  · intro seed sd hle
    unfold attemptDir
    rw [if_pos hle]
  · intro hzero hthr
    have hattempt : ∀ (seed : Vec3q) (sd : ℕ), attemptDir env sq x y z seed sd = none := by
      intro seed sd
      unfold attemptDir
      rw [if_pos (by rw [hzero, hthr])]
    have htsn : ∀ (n : ℕ) (fs : List (List Vec3q)),
        trackSeedNum env sq rand x y z n = some fs → fs = [] := by
      intro n fs h
      simp only [trackSeedNum] at h
      split at h
      · exact absurd h (by simp)
      · have := Option.some.inj h
        rw [← this]
        simp [hattempt]
    have hloop : ∀ (cnt start : ℕ), seedLoop env sq rand x y z start cnt = [] := by
      intro cnt
      induction cnt with
      | zero => intro start; rfl
      | succ c ih =>
        intro start
        simp only [seedLoop]
        cases h : trackSeedNum env sq rand x y z start with
        | none => rfl
        | some fs =>
          rw [htsn start fs h]
          simpa using ih (start + 1)
    unfold trackFromXYZ
    by_cases hb : dirOutOfBounds env x y z
    · rw [if_pos hb]
    · rw [if_neg hb]
      exact hloop _ 0

/- ---------- Lemmas about the growth loop ---------- -/

theorem stepLoop_length_le (env : TrackEnv) :
    ∀ (fuel : ℕ) (c d : Vec3q) (pts : List Vec3q),
      (stepLoop env fuel c d pts).length ≤ pts.length + fuel := by
  intro fuel
  induction fuel with
  | zero =>
    intro c d pts
    simp [stepLoop]
  | succ n ih =>
    intro c d pts
    simp only [stepLoop]
    split
    · omega
    · split
      · omega
      · exact le_trans (ih _ _ _) (by simp; omega)

theorem stepLoop_length_ge (env : TrackEnv) :
    ∀ (fuel : ℕ) (c d : Vec3q) (pts : List Vec3q),
      pts.length ≤ (stepLoop env fuel c d pts).length := by
  intro fuel
  induction fuel with
  | zero =>
    intro c d pts
    simp [stepLoop]
  | succ n ih =>
    intro c d pts
    simp only [stepLoop]
    split
    · omega
    · split
      · omega
      · exact le_trans (by simp) (ih _ _ _)

/-- Every fiber attemptDir returns keeps the two unconditionally recorded
    points and never exceeds max 2 maxLength points. -/
theorem attemptDir_length (env : TrackEnv) (sq : ℚ → ℚ) (x y z : ℤ) (seed : Vec3q)
    (sd : ℕ) (fiber : List Vec3q) (h : attemptDir env sq x y z seed sd = some fiber) :
    2 ≤ fiber.length ∧ (fiber.length : ℤ) ≤ max 2 env.cfg.maxLength := by
  simp only [attemptDir] at h
  split at h
  · exact absurd h (by simp)
  · have hfib := Option.some.inj h
    set p1 : Vec3q := ⟨seed.x + env.cfg.stepSize * (env.dirImg x y z (sd * 4 + 1)),
      seed.y + env.cfg.stepSize * (env.dirImg x y z (sd * 4 + 2)),
      seed.z + env.cfg.stepSize * (env.dirImg x y z (sd * 4 + 3))⟩ with hp1
    set la := stepLoop env (env.cfg.maxLength - 2).toNat p1
      (normalizeQ sq (headDir [p1, seed])) [p1, seed] with hla
    have hla2 : 2 ≤ la.length := by
      have := stepLoop_length_ge env (env.cfg.maxLength - 2).toNat p1
        (normalizeQ sq (headDir [p1, seed])) [p1, seed]
      simpa using this
    have hlaUB : la.length ≤ 2 + (env.cfg.maxLength - 2).toNat := by
      have := stepLoop_length_le env (env.cfg.maxLength - 2).toNat p1
        (normalizeQ sq (headDir [p1, seed])) [p1, seed]
      simpa using this
    have hlb2 : 2 ≤ la.reverse.length := by simpa using hla2
    have hlc := stepLoop_length_ge env (env.cfg.maxLength - (la.reverse.length : ℤ)).toNat
      (la.reverse.headD ⟨0, 0, 0⟩) (normalizeQ sq (headDir la.reverse)) la.reverse
    have hlcUB := stepLoop_length_le env (env.cfg.maxLength - (la.reverse.length : ℤ)).toNat
      (la.reverse.headD ⟨0, 0, 0⟩) (normalizeQ sq (headDir la.reverse)) la.reverse
    rw [hfib] at hlc hlcUB
    simp only [List.length_reverse] at hlc hlcUB hlb2
    omega

/-- Every fiber in the output of the seed loop comes from some
    seed-direction attempt. -/
theorem seedLoop_mem (env : TrackEnv) (sq : ℚ → ℚ) (rand : ℕ → ℚ) (x y z : ℤ) :
    ∀ (cnt start : ℕ) (fiber : List Vec3q),
      fiber ∈ seedLoop env sq rand x y z start cnt →
      ∃ (seed : Vec3q) (sd : ℕ), attemptDir env sq x y z seed sd = some fiber := by
  intro cnt
  induction cnt with
  | zero =>
    intro start fiber hf
    simp [seedLoop] at hf
  | succ c ih =>
    intro start fiber hf
    simp only [seedLoop] at hf
    cases h : trackSeedNum env sq rand x y z start with
    | none => rw [h] at hf; simp at hf
    | some fs =>
      rw [h] at hf
      rcases List.mem_append.mp hf with hin | hin
      · simp only [trackSeedNum] at h
        split at h
        · exact absurd h (by simp)
        · rw [← Option.some.inj h] at hin
          obtain ⟨sd, _, hsd⟩ := List.mem_filterMap.mp hin
          exact ⟨_, sd, hsd⟩
      · exact ih (start + 1) fiber hin

/-- Every fiber trackFromXYZ returns comes from some seed-direction
    attempt. -/
theorem trackFromXYZ_mem (env : TrackEnv) (sq : ℚ → ℚ) (rand : ℕ → ℚ) (x y z : ℤ)
    (fiber : List Vec3q) (h : fiber ∈ trackFromXYZ env sq rand x y z) :
    ∃ (seed : Vec3q) (sd : ℕ), attemptDir env sq x y z seed sd = some fiber := by
  unfold trackFromXYZ at h
  split at h
  · simp at h
  · exact seedLoop_mem env sq rand x y z _ 0 fiber h

/-- C3 (amended): a recorded step count never exceeds max 2 maxLength, so
    it never exceeds maxLength whenever maxLength is at least 2; the
    growth loop is a total function of its fuel, so it terminates. -/
theorem C3_step_count_bound (env : TrackEnv) (sq : ℚ → ℚ) (rand : ℕ → ℚ) (x y z : ℤ)
    (fiber : List Vec3q) (h : fiber ∈ trackFromXYZ env sq rand x y z) :
    LenBoundSpec env fiber := by
  obtain ⟨seed, sd, hsd⟩ := trackFromXYZ_mem env sq rand x y z fiber h
  obtain ⟨h2, hub⟩ := attemptDir_length env sq x y z seed sd fiber hsd
  constructor
  · exact hub
  · intro hml
    omega

/-- C3 counterexample: with maxLength = 1 — a value inside the valid range
    [1,1000] — the engine records a fiber of step count 2, exceeding
    maxLength: the claim as stated is false. -/
theorem C3_step_count_counterexample :
    envC3.cfg.maxLength = 1 ∧ 1 ≤ envC3.cfg.maxLength ∧ envC3.cfg.maxLength ≤ 1000 ∧
    (trackFromXYZ envC3 sqW randHalf 0 0 0).map List.length = [2] := by
  refine ⟨rfl, by decide!, by decide!, by decide!⟩

/-- C3 witness: the amended bound at a concrete produced fiber. -/
theorem C3_step_count_bound_witness :
    fibW ∈ trackFromXYZ envW sqW randHalf 0 0 0 ∧ LenBoundSpec envW fibW :=
  ⟨by decide!, C3_step_count_bound envW sqW randHalf 0 0 0 fibW (by decide!)⟩

/-- C10: every produced fiber records at least the seed point and the
    unconditional first advance: its step count is at least 2. -/
theorem C10_min_two_points (env : TrackEnv) (sq : ℚ → ℚ) (rand : ℕ → ℚ) (x y z : ℤ)
    (fiber : List Vec3q) (h : fiber ∈ trackFromXYZ env sq rand x y z) :
    2 ≤ fiber.length := by
  obtain ⟨seed, sd, hsd⟩ := trackFromXYZ_mem env sq rand x y z fiber h
  exact (attemptDir_length env sq x y z seed sd fiber hsd).1

/-- C10 witness: the bound at a concrete produced fiber. -/
theorem C10_min_two_points_witness :
    fibW ∈ trackFromXYZ envW sqW randHalf 0 0 0 ∧ 2 ≤ fibW.length :=
  ⟨by decide!, C10_min_two_points envW sqW randHalf 0 0 0 fibW (by decide!)⟩

/-- The seed loop up to the first failing random point: when point start+m
    is the first to fail containment, the loop returns exactly the fibers
    of the m points before it. -/
theorem seedLoop_break (env : TrackEnv) (sq : ℚ → ℚ) (rand : ℕ → ℚ) (x y z : ℤ) :
    ∀ (cnt start m : ℕ), m < cnt →
      (∀ k, k < m → (trackSeedNum env sq rand x y z (start + k)).isSome = true) →
      trackSeedNum env sq rand x y z (start + m) = none →
      seedLoop env sq rand x y z start cnt =
        ((List.range m).map
          (fun k => (trackSeedNum env sq rand x y z (start + k)).getD [])).flatten := by
  intro cnt
  induction cnt with
  | zero =>
    intro start m hm
    omega
  | succ c ih =>
    intro start m hm hprev hfail
    cases m with
    | zero =>
      simp only [Nat.add_zero] at hfail
      simp [seedLoop, hfail]
    | succ m' =>
      have h0 : (trackSeedNum env sq rand x y z start).isSome = true := by
        have := hprev 0 (by omega)
        simpa using this
      obtain ⟨fs, hfs⟩ := Option.isSome_iff_exists.mp h0
      simp only [seedLoop, hfs]
      have hrec := ih (start + 1) m' (by omega)
        (fun k hk => by
          have := hprev (k + 1) (by omega)
          have harith : start + (k + 1) = start + 1 + k := by omega
          rwa [harith] at this)
        (by
          have harith : start + (m' + 1) = start + 1 + m' := by omega
          rwa [harith] at hfail)
      rw [hrec]
      rw [List.range_succ_eq_map]
      simp only [List.map_cons, List.map_map, List.flatten_cons, Nat.add_zero, hfs,
        Option.getD_some]
      congr 1
      apply congrArg
      apply List.map_congr_left
      intro k _
      have harith : start + (k + 1) = start + 1 + k := by omega
      simp [Function.comp, harith]

/-- C5 (amended): when random seed point n of a voxel is the first to fail
    the white-matter containment check, the voxel's remaining random seed
    points are never attempted — the output is the fibers of the points
    before n only. -/
theorem C5_seed_break (env : TrackEnv) (sq : ℚ → ℚ) (rand : ℕ → ℚ) (x y z : ℤ) (n : ℕ)
    (hin : ¬ dirOutOfBounds env x y z) (hn : n < env.cfg.seeds.toNat)
    (hprev : ∀ k, k < n → (trackSeedNum env sq rand x y z k).isSome = true)
    (hfail : trackSeedNum env sq rand x y z n = none) :
    SeedBreakSpec env sq rand x y z n := by
  unfold SeedBreakSpec trackFromXYZ
  rw [if_neg hin]
  have := seedLoop_break env sq rand x y z env.cfg.seeds.toNat 0 n hn
    (fun k hk => by simpa using hprev k hk) (by simpa using hfail)
  rw [this]
  apply congrArg
  apply List.map_congr_left
  intro k _
  simp

/-- C5 counterexample: in envC5 the first random seed point fails
    containment while the second would produce a fiber, yet the engine
    returns no fiber at all for the voxel — the remaining random seed
    points are not attempted, contrary to the claim. -/
theorem C5_seed_break_counterexample :
    trackFromXYZ envC5 sqW randC5 0 0 0 = [] ∧
    trackSeedNum envC5 sqW randC5 0 0 0 0 = none ∧
    (trackSeedNum envC5 sqW randC5 0 0 0 1).isSome = true ∧
    ((trackSeedNum envC5 sqW randC5 0 0 0 1).getD []).length = 1 := by
  refine ⟨by decide!, by decide!, by decide!, by decide!⟩

/-- C5 witness: the amended property at the concrete environment, where
    point 0 itself fails (n = 0: nothing at all is produced). -/
theorem C5_seed_break_witness : SeedBreakSpec envC5 sqW randC5 0 0 0 0 :=
  C5_seed_break envC5 sqW randC5 0 0 0 0 (by decide!) (by decide!)
    (fun k hk => absurd hk (Nat.not_lt_zero k)) (by decide!)

/- ---------- The acceptance filter ---------- -/

theorem saveLoop_go (cfg : Config) (pix1 : ℚ) :
    ∀ (fibers acc : List (List Vec3q)) (n : ℕ),
      fibers.foldl
        (fun st f => if acceptFiber cfg pix1 f.length then (st.1 ++ [f], st.2 + 1) else st)
        (acc, n)
      = (acc ++ fibers.filter (fun f => decide (acceptFiber cfg pix1 f.length)),
         n + (fibers.filter (fun f => decide (acceptFiber cfg pix1 f.length))).length) := by
  intro fibers
  induction fibers with
  | nil =>
    intro acc n
    simp
  | cons f rest ih =>
    intro acc n
    by_cases h : acceptFiber cfg pix1 f.length
    · simp only [List.foldl_cons, if_pos h, ih, List.filter_cons, decide_eq_true h,
        ite_true]
      rw [Prod.mk.injEq]
      constructor
      · simp
      · simp
        omega
    · simp only [List.foldl_cons, if_neg h, ih, List.filter_cons,
        decide_eq_false h]
      simp

/-- C4: the save loop persists exactly the fibers whose
    (stepCount-1)*stepSize*pixdim reaches minLength, counts exactly those,
    and silently skips the rest; with stepSize 1, unit voxels and
    minLength 10, step count 11 is accepted and step count 10 rejected. -/
theorem C4_length_filter (cfg : Config) (pix1 : ℚ) (fibers : List (List Vec3q)) :
    SaveSpec cfg pix1 fibers := by
  have hgo := saveLoop_go cfg pix1 fibers [] 0
  have h1 : (saveLoop cfg pix1 fibers).1
      = fibers.filter (fun f => decide (acceptFiber cfg pix1 f.length)) := by
    unfold saveLoop
    rw [hgo]
    simp
  have h2 : (saveLoop cfg pix1 fibers).2
      = (fibers.filter (fun f => decide (acceptFiber cfg pix1 f.length))).length := by
    unfold saveLoop
    rw [hgo]
    simp
  refine ⟨h1, ?_, ?_, ?_, ?_⟩
  · rw [h1, h2]
  · intro f
    rw [h1]
    simp [List.mem_filter]
  · show (10 : ℚ) ≤ ((11 : ℕ) - 1) * 1 * 1
    norm_num
  · show ¬ ((10 : ℚ) ≤ ((10 : ℕ) - 1) * 1 * 1)
    norm_num

/- ---------- The Unique reduction ---------- -/

theorem uniqueLoop_sublist :
    ∀ (pts : List Vec3q) (pos : ℕ) (old : Vec3i),
      (uniqueLoop pts pos old).Sublist pts := by
  intro pts
  induction pts with
  | nil =>
    intro pos old
    simp [uniqueLoop]
  | cons p rest ih =>
    intro pos old
    simp only [uniqueLoop]
    split
    · exact (ih (pos + 3) (floor3 p)).cons₂ p
    · exact (ih pos old).cons p

theorem uniqueLoop_chain :
    ∀ (pts : List Vec3q) (pos : ℕ) (old : Vec3i), pos ≠ 0 →
      List.Chain' (fun a b => floor3 a ≠ floor3 b) (uniqueLoop pts pos old) ∧
      (∀ q, (uniqueLoop pts pos old).head? = some q → floor3 q ≠ old) := by
  intro pts
  induction pts with
  | nil =>
    intro pos old hpos
    constructor
    · simp [uniqueLoop]
    · intro q hq
      simp [uniqueLoop] at hq
  | cons p rest ih =>
    intro pos old hpos
    simp only [uniqueLoop]
    split
    · rename_i hcond
      have hne : floor3 p ≠ old := by
        rcases hcond with h | h
        · exact absurd h hpos
        · exact h
      obtain ⟨ch, hh⟩ := ih (pos + 3) (floor3 p) (by omega)
      constructor
      · rw [List.chain'_cons']
        exact ⟨fun y hy => (hh y hy).symm, ch⟩
      · intro q hq
        simp only [List.head?_cons, Option.some.injEq] at hq
        rw [← hq]
        exact hne
    · exact ih pos old hpos

theorem uniqueLoop_covers :
    ∀ (pts : List Vec3q) (pos : ℕ) (old : Vec3i) (p : Vec3q), p ∈ pts →
      (∃ q, q ∈ uniqueLoop pts pos old ∧ floor3 q = floor3 p) ∨
      (pos ≠ 0 ∧ floor3 p = old) := by
  intro pts
  induction pts with
  | nil =>
    intro pos old p hp
    simp at hp
  | cons a rest ih =>
    intro pos old p hp
    simp only [uniqueLoop]
    split
    · rcases List.mem_cons.mp hp with rfl | hmem
      · exact Or.inl ⟨p, List.mem_cons_self _ _, rfl⟩
      · rcases ih (pos + 3) (floor3 a) p hmem with ⟨q, hq, he⟩ | ⟨_, he⟩
        · exact Or.inl ⟨q, List.mem_cons_of_mem a hq, he⟩
        · exact Or.inl ⟨a, List.mem_cons_self _ _, he.symm⟩
    · rename_i hcond
      push_neg at hcond
      rcases List.mem_cons.mp hp with rfl | hmem
      · exact Or.inr ⟨hcond.1, hcond.2⟩
      · exact ih pos old p hmem

/-- C6: the Unique reduction never writes two consecutive points in the
    same floor voxel, keeps at least one point of every traversed floor
    voxel, and writes a subsequence of the fiber. -/
theorem C6_unique_reduction (pts : List Vec3q) : UniqueSpec pts := by
  refine ⟨?_, ?_, ?_⟩
  · cases pts with
    | nil =>
      simp [uniqueReduce, uniqueLoop]
    | cons p rest =>
      have hred : uniqueReduce (p :: rest) = p :: uniqueLoop rest 3 (floor3 p) := by
        simp [uniqueReduce, uniqueLoop]
      rw [hred, List.chain'_cons']
      obtain ⟨ch, hh⟩ := uniqueLoop_chain rest 3 (floor3 p) (by omega)
      exact ⟨fun y hy => (hh y hy).symm, ch⟩
  · intro p hp
    rcases uniqueLoop_covers pts 0 ⟨0, 0, 0⟩ p hp with ⟨q, hq, he⟩ | ⟨h0, _⟩
    · exact ⟨q, hq, he⟩
    · exact absurd rfl h0
  · exact uniqueLoop_sublist pts 0 ⟨0, 0, 0⟩

/- ---------- Geometry-mismatch policy and parameter validation ---------- -/

/-- C7: geometry-mismatch handling is asymmetric — a seed mask whose voxel
    sizes or dims differ from DIR is a hard stop (exit with diagnostic),
    while a WM mask whose FOV differs only warns and is installed, so
    tracking proceeds. -/
theorem C7_mask_mismatch_asymmetry (dir wm sd : NiftiGeom)
    (hwm : wmFovMismatch dir wm) (hsd : seedGeomMismatch dir sd) :
    setSeedMask dir (some sd) =
      Except.error "the SEED MASK must have the same geometry of DIR dataset" ∧
    setWhiteMatterMask dir wm = (true, wm) := by
  constructor
  · simp [setSeedMask, hsd]
  · simp [setWhiteMatterMask, hwm]

/-- C7 witness: concrete geometries differing on the first axis. -/
theorem C7_mask_mismatch_asymmetry_witness :
    setSeedMask geomDirW (some geomMaskW) =
      Except.error "the SEED MASK must have the same geometry of DIR dataset" ∧
    setWhiteMatterMask geomDirW geomMaskW = (true, geomMaskW) :=
  C7_mask_mismatch_asymmetry geomDirW geomMaskW geomMaskW (by decide!) (by decide!)

/-- C9 (amended): validation accepts exactly when the five checked
    parameters are in range — minLength is never examined — and a failed
    check reaches the caller as the error, before any tracking output. -/
theorem C9_validation (c : Config) (run : Unit → ℕ) : CheckSpec c run := by
  constructor
  · unfold checkParams
    split_ifs with h1 h2 h3 h4 h5
    · refine iff_of_false (by simp) ?_
      rintro ⟨a1, a2, a3, a4, a5, a6, a7, a8, a9, a10⟩
      rcases h1 with h | h <;> linarith
    · refine iff_of_false (by simp) ?_
      rintro ⟨a1, a2, a3, a4, a5, a6, a7, a8, a9, a10⟩
      rcases h2 with h | h <;> linarith
    · refine iff_of_false (by simp) ?_
      rintro ⟨a1, a2, a3, a4, a5, a6, a7, a8, a9, a10⟩
      rcases h3 with h | h <;> omega
    · refine iff_of_false (by simp) ?_
      rintro ⟨a1, a2, a3, a4, a5, a6, a7, a8, a9, a10⟩
      rcases h4 with h | h <;> linarith
    · refine iff_of_false (by simp) ?_
      rintro ⟨a1, a2, a3, a4, a5, a6, a7, a8, a9, a10⟩
      rcases h5 with h | h <;> omega
    · push_neg at h1 h2 h3 h4 h5
      refine iff_of_true rfl
        ⟨h1.1, h1.2, h2.1, h2.2, by omega, by omega, h4.1, h4.2, by omega, by omega⟩
  · intro e he
    unfold mainModel
    rw [he]

/-- C9 counterexample: minLength = -1 lies outside the spec's valid range
    for minLength, every other parameter is in range, yet validation
    accepts the configuration and the program proceeds to tracking. -/
theorem C9_validation_counterexample :
    cfgNegMin.minLength < 0 ∧ checkParams cfgNegMin = Except.ok () ∧
    mainModel cfgNegMin (fun _ => 42) = Except.ok 42 := by
  refine ⟨by decide!, rfl, rfl⟩

/-- C9 witness: the amended property at a concrete configuration. -/
theorem C9_validation_witness : CheckSpec cfgNegMin (fun _ => 42) :=
  C9_validation cfgNegMin (fun _ => 42)

/- ---------- The trk header round trip ---------- -/

/-- C8: create writes the header with count 0, version 1, size 1000; the
    in-place rewrite of updateTotal at offset 1000-12 = 988 lands on the
    count field; reading the header back recovers the grid dimensions, the
    voxel-size patterns and the new count. -/
theorem C8_trk_roundtrip (junk : Bytes) (d1 d2 d3 : ℤ) (p1 p2 p3 n : ℕ) (f : Bytes)
    (hd1 : 0 < d1) (hd1u : d1 < 32768) (hd2 : 0 < d2) (hd2u : d2 < 32768)
    (hd3 : 0 < d3) (hd3u : d3 < 32768)
    (hp1 : f32pos p1) (hp2 : f32pos p2) (hp3 : f32pos p3)
    (hn : n < 4294967296)
    (hc : trkCreate junk d1 d2 d3 p1 p2 p3 = some f) :
    TrkSpec d1 d2 d3 p1 p2 p3 n f := by
  obtain ⟨hp1a, hp1b⟩ := hp1
  obtain ⟨hp2a, hp2b⟩ := hp2
  obtain ⟨hp3a, hp3b⟩ := hp3
  simp only [trkCreate] at hc
  split at hc
  · exact absurd hc (by simp)
  · have hf := Option.some.inj hc
    subst hf
    unfold TrkSpec trkReadDims trkReadVoxelSize trkReadCount trkReadVersion
      trkReadHdrSize trkUpdateTotal rd16 rd32
    refine ⟨?_, ?_, ?_, ?_, ?_, ?_, ?_⟩ <;>
      · simp only [writeBytes, i16le, i32le, f32one, List.length_cons, List.length_nil,
          List.getD, List.getD_eq_getElem?_getD, Prod.mk.injEq]
        norm_num
        try omega

/-- C8 witness: the round trip at concrete dimensions 2x3x4, voxel size
    pattern 1.0f and final count 7. -/
theorem C8_trk_roundtrip_witness :
    (0 : ℤ) < 2 ∧ f32pos f32one ∧ (7 : ℕ) < 4294967296 ∧
    TrkSpec 2 3 4 f32one f32one f32one 7 trkW :=
  ⟨by decide, by decide, by decide,
    C8_trk_roundtrip junkW 2 3 4 f32one f32one f32one 7 trkW
      (by decide) (by decide) (by decide) (by decide) (by decide) (by decide)
      (by decide) (by decide) (by decide) (by decide) rfl⟩
